import Mathlib

/-!
Shallow embedding of the core of `src/python/utils.py` from the
deep-action-proposals repository: the C3D binary feature-dump reader and
stacker, the 1-d pooling primitives, and the segment-interval arithmetic.

Modelling conventions:
* numpy float64 values are modelled as exact rationals (`ℚ`); every concrete
  input appearing in a theorem below uses only values at which binary floating
  point arithmetic is exact, so the rational model agrees with the float code
  at those points;
* a non-finite float result (NaN from `0/0` or an empty-slice mean, inf from
  division by zero) is modelled as `none` in the type `NF := Option ℚ`;
* a raised Python exception is modelled with `Except`;
* in-place mutation (`segment_unit_scaling`) is modelled by returning the
  final state of the argument array alongside the returned array.
-/

/-- A float value: `some q` is the finite value `q`, `none` models NaN (and
any other non-finite result such as inf from division by zero). -/
abbrev NF := Option ℚ

/-- NaN-propagating addition. -/
def nfAdd (x y : NF) : NF :=
  match x, y with
  | some a, some b => some (a + b)
  | _, _ => none

/-- NaN-propagating multiplication. -/
def nfMul (x y : NF) : NF :=
  match x, y with
  | some a, some b => some (a * b)
  | _, _ => none

/-- NaN-propagating division; any division by zero (`0/0` is NaN, `x/0` is
inf in numpy) yields a non-finite value, modelled as `none`. -/
def nfDiv (x y : NF) : NF :=
  match y with
  | none => none
  | some b =>
    if b = 0 then none
    else
      match x with
      | none => none
      | some a => some (a / b)

/-- `np.round`: round half to even, numpy's rounding mode. -/
def roundHalfEven (q : ℚ) : ℤ :=
  let f := ⌊q⌋
  if q - f < 1 / 2 then f
  else if 1 / 2 < q - f then f + 1
  else if f % 2 = 0 then f else f + 1

/-- `np.sqrt`, modelled as the exact rational square root on rationals whose
numerator and denominator are perfect squares — the only points at which the
theorems below evaluate it, and points where IEEE-754 square root is also
exact.  (On other inputs this model returns the componentwise integer square
root; no theorem depends on those values.) -/
def np_sqrt (q : ℚ) : ℚ :=
  (((List.range (q.num.toNat + 1)).foldl
      (fun (a k : ℕ) => if ((k : ℤ) * (k : ℤ)) ≤ q.num then k else a) 0 : ℕ) : ℚ) /
  (((List.range (q.den + 1)).foldl
      (fun (a k : ℕ) => if k * k ≤ q.den then k else a) 0 : ℕ) : ℚ)

/-- Python's ASCII `str.lower()`, as a kernel-computable map over the
string's characters (the pool-kind strings are all ASCII). -/
def pyLower (s : String) : String :=
  ⟨s.data.map Char.toLower⟩

/-- `np.cumsum` on a list of rationals. -/
def cumsum (l : List ℚ) : List ℚ :=
  (l.scanl (· + ·) 0).tail

/-- Python slice `x[a:b]` for non-negative integer indices. -/
def pySlice {α : Type} (x : List α) (a b : ℤ) : List α :=
  (x.take b.toNat).drop a.toNat

/-! ## C3D binary feature-dump reader (`c3d_read_feature`, utils.py:122-146) -/

/-- Errors raised while parsing a dump: `array.fromfile` raises EOFError when
fewer items than requested are available in the stream. -/
inductive ReadErr where
  | truncatedHeader : ReadErr
  | truncatedValues : ReadErr
  deriving DecidableEq

/-- A C3D dump file, already split into its two regions: the cells consumed
by the int32 `array.fromfile(f, 5)` call and the remaining cells read as
float32 values.  `header` holds every int cell available at the front of the
file and `values` the float cells after them. -/
structure C3DDump where
  header : List ℤ
  values : List ℚ
  deriving DecidableEq

/-- `np.cumprod(s)[-1]`: the running product of `s`, reduced to its last
entry, i.e. the product of all entries. -/
def np_cumprod_last (s : List ℤ) : ℤ :=
  s.foldl (· * ·) 1

/-- `c3d_read_feature` (utils.py:139-146): read 5 int32 shape entries, let
`m` be their product, read `m` float32 values, and return both. -/
def c3d_read_feature (f : C3DDump) : Except ReadErr (List ℤ × List ℚ) :=
  if f.header.length < 5 then .error .truncatedHeader
  else
    let s := f.header.take 5
    let m := np_cumprod_last s
    if (f.values.length : ℤ) < m then .error .truncatedValues
    else .ok (s, f.values.take m.toNat)

/-! ## Feature stacker row filling (`c3d_stack_feature`, utils.py:189-197) -/

/-- The row-filling portion of `c3d_stack_feature`: `empty` is the content of
the freshly allocated `np.empty` matrix (uninitialised memory, one garbage
row per file) and `dumps` the flattened data of the sorted dump files.  The
source executes

  `arr[0, ...] = data₀` and then
  `for i, v in enumerate(sorted_files[1::]): arr[i, ...] = dataᵢ₊₁`

so the loop index `i` restarts at 0 for the second file. -/
def c3d_stack_rows (empty : List (List ℚ)) (dumps : List (List ℚ)) :
    List (List ℚ) :=
  let arr := empty.set 0 dumps.headI
  (dumps.drop 1).enum.foldl (fun a p => a.set p.1 p.2) arr

/-! ## Segment format conversion (`segment_format`, utils.py:738-772) -/

/-- Errors of the segment utilities. -/
inductive SegErr where
  | invalidShape : SegErr
  | incompatibleInit : SegErr
  deriving DecidableEq

/-- The rank guard of `segment_format` (utils.py:757-759).  The source reads

  `if X.ndim != 2: msg = '...'; ValueError(msg.format(X.shape))`

— the `ValueError` is constructed but never raised (there is no `raise`
statement), so the guard falls through without signalling an error for every
rank. -/
def segment_format_ndim_guard (ndim : ℕ) : Except SegErr Unit :=
  if ndim ≠ 2 then
    -- the exception object is created and immediately discarded
    Except.ok ()
  else Except.ok ()

/-- `segment_format` on a well-shaped `[n, 2]` input (utils.py:761-772).
The three recognised modes convert columnwise exactly as the source does;
any other mode string falls off the end of the `if/elif` chain and Python
returns `None`, modelled as `none`. -/
def segment_format (X : List (ℚ × ℚ)) (mthd : String) :
    Option (List (ℚ × ℚ)) :=
  if mthd = "c2b" then
    some (X.map (fun p =>
      let Xinit : ℚ := ⌈p.1 - 0.5 * p.2⌉
      (Xinit, Xinit + p.2 - 1)))
  else if mthd = "b2c" then
    some (X.map (fun p =>
      ((roundHalfEven (0.5 * (p.1 + p.2)) : ℚ), p.2 - p.1 + 1)))
  else if mthd = "d2b" then
    some (X.map (fun p => (p.1, p.1 + p.2 - 1)))
  else none

/-- Cast an integer annotation array to the rational (float) model. -/
def intPairs (X : List (ℤ × ℤ)) : List (ℚ × ℚ) :=
  X.map (fun p => ((p.1 : ℚ), (p.2 : ℚ)))

/-! ## Claim theorems (first group) -/

/-- C7: for every file holding exactly 5 signed 32-bit integers followed by
exactly the product of those integers many 32-bit floats, `c3d_read_feature`
returns that shape vector and that flat value buffer. -/
theorem c3d_read_feature_exact (f : C3DDump)
    (hh : f.header.length = 5)
    (hv : (f.values.length : ℤ) = np_cumprod_last f.header) :
    c3d_read_feature f = .ok (f.header, f.values) := by
  unfold c3d_read_feature
  rw [if_neg (by omega)]
  rw [List.take_of_length_le (by omega)]
  rw [if_neg (by omega)]
  have hm : (np_cumprod_last f.header).toNat = f.values.length := by omega
  rw [hm, List.take_length]

/-- Witness for C7: the scenario dump with header `[1,1,1,1,4]` and values
`[1.0, 2.0, 3.0, 4.0]`. -/
theorem c3d_read_feature_exact_witness :
    (([1, 1, 1, 1, 4] : List ℤ).length = 5) ∧
    ((([(1 : ℚ), 2, 3, 4]).length : ℤ) = np_cumprod_last [1, 1, 1, 1, 4]) ∧
    c3d_read_feature ⟨[1, 1, 1, 1, 4], [1, 2, 3, 4]⟩ =
      .ok ([1, 1, 1, 1, 4], [1, 2, 3, 4]) := by
  refine ⟨by decide, by decide, ?_⟩
  exact c3d_read_feature_exact ⟨[1, 1, 1, 1, 4], [1, 2, 3, 4]⟩
    (by decide) (by decide)

/-- C1: evaluating the stacking loop on two dump files with values `[1]` and
`[2]` (and `np.empty` garbage rows `[9]`, `[9]`): the second dump overwrites
row 0 and the last row keeps its uninitialised garbage, so the returned
matrix is `[[2], [9]]`, not `[[1], [2]]` as the claim states. -/
theorem c3d_stack_rows_off_by_one :
    c3d_stack_rows [[9], [9]] [[1], [2]] = [[2], [9]] := by decide

/-- C3: the rank guard of `segment_format` never raises — the `ValueError`
for a non-2-dimensional input is constructed but not raised, so for every
rank the guard returns control without an error, contradicting the claim
that the conversion fails with an invalid-shape error. -/
theorem segment_format_guard_no_raise (ndim : ℕ) :
    segment_format_ndim_guard ndim = Except.ok () := by
  unfold segment_format_ndim_guard
  split <;> rfl

/-- C10: for every 2-dimensional input and every mode string other than
`"c2b"`, `"b2c"` and `"d2b"`, `segment_format` falls through the `if/elif`
chain and returns `None`. -/
theorem segment_format_unknown_mode_none (X : List (ℚ × ℚ)) (mthd : String)
    (h1 : mthd ≠ "c2b") (h2 : mthd ≠ "b2c") (h3 : mthd ≠ "d2b") :
    segment_format X mthd = none := by
  unfold segment_format
  rw [if_neg h1, if_neg h2, if_neg h3]

/-- Witness for C10: mode `"xyz"` on a concrete batch returns `None`. -/
theorem segment_format_unknown_mode_none_witness :
    ("xyz" ≠ "c2b") ∧ ("xyz" ≠ "b2c") ∧ ("xyz" ≠ "d2b") ∧
    segment_format [((1 : ℚ), 2)] "xyz" = none := by
  refine ⟨by decide, by decide, by decide, ?_⟩
  exact segment_format_unknown_mode_none [((1 : ℚ), 2)] "xyz"
    (by decide) (by decide) (by decide)

/-! ## Pairwise IoU (`segment_iou`, utils.py:822-857) -/

/-- One entry of the IoU matrix (the body of the loop at utils.py:845-856):
`tt1 = max(starts)`, `tt2 = min(ends)`, `intersection = clip(tt2-tt1+1, 0)`,
`union = testSize + targetSize - intersection`, result
`intersection / union`; a zero union makes the float division non-finite
(`0/0` is NaN), modelled as `none`. -/
def iouEntry (t s : ℚ × ℚ) : NF :=
  let tt1 := max t.1 s.1
  let tt2 := min t.2 s.2
  let intersection := max (tt2 - tt1 + 1) 0
  let union := (s.2 - s.1 + 1) + (t.2 - t.1 + 1) - intersection
  if union = 0 then none else some (intersection / union)

/-- `segment_iou` (utils.py:822-857) on well-shaped `[m,2]`/`[n,2]` batches:
row `i` holds the IoU of target `i` against every test segment. -/
def segment_iou (target test : List (ℚ × ℚ)) : List (List NF) :=
  target.map (fun t => test.map (fun s => iouEntry t s))

lemma iouEntry_comm (t s : ℚ × ℚ) : iouEntry t s = iouEntry s t := by
  unfold iouEntry
  rw [max_comm t.1 s.1, min_comm t.2 s.2,
    add_comm (s.2 - s.1 + 1) (t.2 - t.1 + 1)]

/-! ## Claim theorems: C2 and C8 -/

/-- C2 counterexample: for the degenerate zero-length segments `[1, 0]`
(size `0 - 1 + 1 = 0`), the union is zero and `segment_iou` produces the
non-finite `0/0` (NaN), not the value `0` the claim asserts. -/
theorem segment_iou_zero_union_nan :
    segment_iou [((1 : ℚ), 0)] [((1 : ℚ), 0)] = [[(none : NF)]] ∧
    segment_iou [((1 : ℚ), 0)] [((1 : ℚ), 0)] ≠ [[(some 0 : NF)]] := by
  have h : segment_iou [((1 : ℚ), 0)] [((1 : ℚ), 0)] = [[(none : NF)]] := by
    norm_num [segment_iou, iouEntry]
  exact ⟨h, by rw [h]; simp⟩

/-- C2 (amended): every entry `(i, j)` of `segment_iou` equals
`clamp(hi-lo+1, min=0)` divided by `testSize + targetSize - intersection`
whenever that union is non-zero; when the union is zero the entry is the
non-finite float `0/0` (NaN, modelled `none`), not `0`. -/
theorem segment_iou_entry_formula (A B : List (ℚ × ℚ)) (i j : ℕ)
    (t s : ℚ × ℚ) (hA : A[i]? = some t) (hB : B[j]? = some s) :
    (segment_iou A B)[i]?.bind (fun r => r[j]?) =
      some (if (s.2 - s.1 + 1) + (t.2 - t.1 + 1) -
              max (min t.2 s.2 - max t.1 s.1 + 1) 0 = 0
            then (none : NF)
            else some (max (min t.2 s.2 - max t.1 s.1 + 1) 0 /
              ((s.2 - s.1 + 1) + (t.2 - t.1 + 1) -
                max (min t.2 s.2 - max t.1 s.1 + 1) 0))) := by
  simp [segment_iou, List.getElem?_map, hA, hB, iouEntry]

/-- Witness for C2 (amended): the scenario `iou([[0,9]], [[10,19]])` — the
segments do not overlap, the union is `20`, and the IoU entry is `0.0`. -/
theorem segment_iou_entry_formula_witness :
    ([((0 : ℚ), 9)][0]? = some ((0 : ℚ), 9)) ∧
    ([((10 : ℚ), 19)][0]? = some ((10 : ℚ), 19)) ∧
    (segment_iou [((0 : ℚ), 9)] [((10 : ℚ), 19)])[0]?.bind (fun r => r[0]?) =
      some (some 0) := by
  refine ⟨rfl, rfl, ?_⟩
  have h := segment_iou_entry_formula [((0 : ℚ), 9)] [((10 : ℚ), 19)] 0 0
    ((0 : ℚ), 9) ((10 : ℚ), 19) rfl rfl
  norm_num at h
  exact h

/-- C8: the IoU matrix is symmetric under swapping the target and test
batches combined with a transpose: entry `(i, j)` of `segment_iou A B`
equals entry `(j, i)` of `segment_iou B A`, for every pair of indices
(out-of-range indices yield `none` on both sides). -/
theorem segment_iou_transpose_symm (A B : List (ℚ × ℚ)) (i j : ℕ) :
    (segment_iou A B)[i]?.bind (fun r => r[j]?) =
      (segment_iou B A)[j]?.bind (fun r => r[i]?) := by
  simp only [segment_iou, List.getElem?_map]
  cases hA : A[i]? <;> cases hB : B[j]? <;>
    simp [hA, hB, List.getElem?_map, iouEntry_comm]

/-! ## Unit rescaling (`segment_unit_scaling`, utils.py:860-891) -/

/-- `segment_unit_scaling` (utils.py:878-891) in state-passing form.  The
source sets `Y = X` and only when `copy=True` replaces `Y` by a fresh copy;
it then subtracts `init` from the start column (after checking its length),
divides starts by `T - 1` and durations by `T`, all in place on `Y`.  The
result models the pair (final state of the argument `X`, returned array):
when `copy=False`, `Y` aliases `X`, so the caller's `X` ends up holding the
transformed values.  Rational division stands in for float division; every
concrete theorem below divides only at float-exact points. -/
def segment_unit_scaling (X : List (ℚ × ℚ)) (T : ℚ) (init : Option (List ℚ))
    (copy : Bool) : Except SegErr (List (ℚ × ℚ) × List (ℚ × ℚ)) :=
  let shifted : Except SegErr (List (ℚ × ℚ)) :=
    match init with
    | none => Except.ok X
    | some ini =>
      if ini.length ≠ X.length then Except.error SegErr.incompatibleInit
      else Except.ok ((X.zip ini).map (fun pi => (pi.1.1 - pi.2, pi.1.2)))
  match shifted with
  | .error e => .error e
  | .ok Y1 =>
    let Yfin := Y1.map (fun p => (p.1 / (T - 1), p.2 / T))
    if copy then Except.ok (X, Yfin) else Except.ok (Yfin, Yfin)

/-- C5 counterexample: calling `segment_unit_scaling` without requesting
in-place mode (the default `copy=False`) mutates the caller's array: after
`segment_unit_scaling([[1, 2]], T=2)` the argument holds `[[1, 1]]`, not its
original value `[[1, 2]]`. -/
theorem segment_unit_scaling_mutates_by_default :
    segment_unit_scaling [((1 : ℚ), 2)] 2 none false =
      .ok ([((1 : ℚ), 1)], [((1 : ℚ), 1)]) ∧
    [((1 : ℚ), (1 : ℚ))] ≠ [((1 : ℚ), (2 : ℚ))] := by
  constructor
  · norm_num [segment_unit_scaling]
  · decide

/-- C5 (amended): `segment_unit_scaling` operates in place by default — with
`copy=False` the returned array is the argument itself (the final state of
`X` equals the returned value) — and leaves the input unchanged only when
the copy is explicitly requested with `copy=True`. -/
theorem segment_unit_scaling_copy_semantics (X : List (ℚ × ℚ)) (T : ℚ)
    (init : Option (List ℚ)) (Xc Yc Xn Yn : List (ℚ × ℚ))
    (hc : segment_unit_scaling X T init true = .ok (Xc, Yc))
    (hn : segment_unit_scaling X T init false = .ok (Xn, Yn)) :
    Xc = X ∧ Xn = Yn := by
  cases init with
  | none =>
    simp only [segment_unit_scaling, if_true, if_false, Except.ok.injEq,
      Prod.mk.injEq, Bool.false_eq_true, ite_true, ite_false] at hc hn
    exact ⟨hc.1.symm, hn.1.symm.trans hn.2⟩
  | some ini =>
    by_cases h : ini.length = X.length
    · simp only [segment_unit_scaling, h, ne_eq, not_true_eq_false, if_false,
        Except.ok.injEq, Prod.mk.injEq, Bool.false_eq_true, ite_true,
        ite_false] at hc hn
      exact ⟨hc.1.symm, hn.1.symm.trans hn.2⟩
    · simp only [segment_unit_scaling, ne_eq, h, not_false_eq_true, if_true,
        reduceCtorEq] at hc

/-- Witness for C5 (amended): with `X = [[1, 2]]`, `T = 2`, no `init`:
`copy=True` keeps `X` intact, `copy=False` returns the mutated `X` itself. -/
theorem segment_unit_scaling_copy_semantics_witness :
    segment_unit_scaling [((1 : ℚ), 2)] 2 none true =
      .ok ([((1 : ℚ), 2)], [((1 : ℚ), 1)]) ∧
    segment_unit_scaling [((1 : ℚ), 2)] 2 none false =
      .ok ([((1 : ℚ), 1)], [((1 : ℚ), 1)]) ∧
    ([((1 : ℚ), (2 : ℚ))] = [((1 : ℚ), (2 : ℚ))] ∧
      [((1 : ℚ), (1 : ℚ))] = [((1 : ℚ), (1 : ℚ))]) := by
  have hc : segment_unit_scaling [((1 : ℚ), 2)] 2 none true =
      .ok ([((1 : ℚ), 2)], [((1 : ℚ), 1)]) := by
    norm_num [segment_unit_scaling]
  have hn : segment_unit_scaling [((1 : ℚ), 2)] 2 none false =
      .ok ([((1 : ℚ), 1)], [((1 : ℚ), 1)]) := by
    norm_num [segment_unit_scaling]
  exact ⟨hc, hn,
    segment_unit_scaling_copy_semantics [((1 : ℚ), 2)] 2 none
      [((1 : ℚ), 2)] [((1 : ℚ), 1)] [((1 : ℚ), 1)] [((1 : ℚ), 1)] hc hn⟩

/-! ## C6: the c2b / b2c round trip -/

lemma floor_intCast_sub_half (a : ℤ) : ⌊(a : ℚ) - 1 / 2⌋ = a - 1 := by
  rw [Int.floor_eq_iff]
  constructor
  · push_cast; linarith
  · push_cast; linarith

lemma ceil_intCast_sub_half (a : ℤ) : ⌈(a : ℚ) - 1 / 2⌉ = a := by
  rw [Int.ceil_eq_iff]
  constructor
  · linarith
  · linarith

lemma roundHalfEven_intCast (a : ℤ) : roundHalfEven (a : ℚ) = a := by
  unfold roundHalfEven
  rw [Int.floor_intCast]
  norm_num

lemma roundHalfEven_intCast_sub_half (a : ℤ) :
    roundHalfEven ((a : ℚ) - 1 / 2) = if a % 2 = 1 then a - 1 else a := by
  have h : (a : ℚ) - 1 / 2 - ((a - 1 : ℤ) : ℚ) = 1 / 2 := by push_cast; ring
  simp only [roundHalfEven, floor_intCast_sub_half, h]
  norm_num
  split <;> split <;> omega

/-- One annotation through c2b then b2c: the duration comes back exactly and
the centre comes back exactly except when the duration is even and the
centre odd, where banker's rounding of `c - 1/2` yields `c - 1`. -/
lemma c2b_b2c_pair (c d : ℤ) :
    ((roundHalfEven ((0.5 : ℚ) * ((⌈(c : ℚ) - 0.5 * (d : ℚ)⌉ : ℚ) +
        ((⌈(c : ℚ) - 0.5 * (d : ℚ)⌉ : ℚ) + (d : ℚ) - 1))) : ℤ) : ℚ) =
      (((if d % 2 = 0 ∧ c % 2 = 1 then c - 1 else c) : ℤ) : ℚ) ∧
    ((⌈(c : ℚ) - 0.5 * (d : ℚ)⌉ : ℚ) + (d : ℚ) - 1) -
        (⌈(c : ℚ) - 0.5 * (d : ℚ)⌉ : ℚ) + 1 = (d : ℚ) := by
  refine ⟨?_, by ring⟩
  rcases Int.even_or_odd d with ⟨k, hk⟩ | ⟨k, hk⟩
  · -- even duration: d = 2k, Xinit = c - k, centre arg = c - 1/2
    subst hk
    have hceil : ⌈(c : ℚ) - 0.5 * ((k + k : ℤ) : ℚ)⌉ = c - k := by
      have : (c : ℚ) - 0.5 * ((k + k : ℤ) : ℚ) = ((c - k : ℤ) : ℚ) := by
        push_cast; ring
      rw [this, Int.ceil_intCast]
    have harg : (0.5 : ℚ) * ((((c - k : ℤ)) : ℚ) +
        ((((c - k : ℤ)) : ℚ) + ((k + k : ℤ) : ℚ) - 1)) = (c : ℚ) - 1 / 2 := by
      push_cast; ring
    rw [hceil, harg, roundHalfEven_intCast_sub_half]
    have hd : (k + k) % 2 = 0 := by omega
    simp [hd]
  · -- odd duration: d = 2k + 1, Xinit = c - k, centre arg = c
    subst hk
    have hceil : ⌈(c : ℚ) - 0.5 * ((2 * k + 1 : ℤ) : ℚ)⌉ = c - k := by
      have : (c : ℚ) - 0.5 * ((2 * k + 1 : ℤ) : ℚ) = ((c - k : ℤ) : ℚ) - 1 / 2 := by
        push_cast; ring
      rw [this, ceil_intCast_sub_half]
    have harg : (0.5 : ℚ) * ((((c - k : ℤ)) : ℚ) +
        ((((c - k : ℤ)) : ℚ) + ((2 * k + 1 : ℤ) : ℚ) - 1)) = (c : ℚ) := by
      push_cast; ring
    rw [hceil, harg, roundHalfEven_intCast]
    have hd : (2 * k + 1) % 2 ≠ 0 := by omega
    simp [hd]

/-- C6: converting an all-integer `[n, 2]` (center, duration) array with
positive integer durations to bounds and back recovers the durations
exactly, and the centers exactly except in the even-duration parity edge
case, where an odd center comes back as `center - 1` (banker's rounding of
`center - 1/2`). -/
theorem segment_format_c2b_b2c_roundtrip (X : List (ℤ × ℤ))
    (_hd : ∀ p ∈ X, 0 < p.2) :
    (segment_format (intPairs X) "c2b").bind (fun Y => segment_format Y "b2c") =
      some (intPairs (X.map (fun p =>
        (if p.2 % 2 = 0 ∧ p.1 % 2 = 1 then p.1 - 1 else p.1, p.2)))) := by
  simp only [segment_format, intPairs, List.map_map, reduceIte,
    String.reduceEq, Option.some_bind]
  refine congrArg some ?_
  apply List.map_congr_left
  intro p _
  have h := c2b_b2c_pair p.1 p.2
  simp only [Function.comp_apply]
  exact Prod.ext h.1 h.2

/-- Witness for C6: the annotation `(center, duration) = (3, 4)` (even
duration, odd center) round-trips to `(2, 4)`. -/
theorem segment_format_c2b_b2c_roundtrip_witness :
    (∀ p ∈ [((3 : ℤ), (4 : ℤ))], 0 < p.2) ∧
    (segment_format (intPairs [((3 : ℤ), (4 : ℤ))]) "c2b").bind
      (fun Y => segment_format Y "b2c") = some [((2 : ℚ), (4 : ℚ))] := by
  refine ⟨by decide, ?_⟩
  have h := segment_format_c2b_b2c_roundtrip [((3 : ℤ), (4 : ℤ))] (by decide)
  simpa [intPairs] using h

/-! ## Pooling primitives
(`feature_1dpyramid`, utils.py:335-385 and `feature_1dconcat`,
utils.py:388-431) -/

/-- Exceptions raised inside the pooling loops. -/
inductive PoolErr where
  /-- `np.max` over a zero-size slice raises
  `ValueError: zero-size array to reduction operation`. -/
  | zeroSizeReduction : PoolErr
  /-- `raise ValueError('Unknown pooling type ...')`. -/
  | unknownPool : String → PoolErr
  deriving DecidableEq

/-- Column sums of a region of rows (`d` is the feature dimensionality). -/
def colSum (d : ℕ) (rows : List (List ℚ)) : List ℚ :=
  rows.foldl (fun a r => a.zipWith (· + ·) r) (List.replicate d 0)

/-- `region.mean(axis=0)`: on an empty region numpy emits a runtime warning
and returns a length-`d` row of NaN; otherwise the column means. -/
def np_mean0 (d : ℕ) (rows : List (List ℚ)) : List NF :=
  if rows.isEmpty then List.replicate d none
  else (colSum d rows).map (fun s => some (s / rows.length))

/-- `region.max(axis=0)`: raises on a zero-size region, otherwise the
columnwise maxima. -/
def np_max0 (rows : List (List ℚ)) : Except PoolErr (List NF) :=
  match rows with
  | [] => .error .zeroSizeReduction
  | r :: rs => .ok ((rs.foldl (fun a b => a.zipWith max b) r).map some)

/-- The `if/elif/else` pool-kind dispatch of the loop bodies
(utils.py:368-373 and utils.py:415-420). -/
def pool_region (pt : String) (d : ℕ) (rows : List (List ℚ)) :
    Except PoolErr (List NF) :=
  if pt = "mean" then .ok (np_mean0 d rows)
  else if pt = "max" then np_max0 rows
  else .error (.unknownPool pt)

/-- Optional per-region L2 normalisation (utils.py:375-379 and 422-426):
`feat_norm = sqrt((arr**2).sum()); if feat_norm == 0: feat_norm = 1.0;
arr /= feat_norm`.  A NaN entry contaminates the sum, the square root and
the quotient, exactly as in float arithmetic (NaN compares unequal to 0). -/
def norm_region (v : List NF) : List NF :=
  let s := v.foldl (fun acc e => nfAdd acc (nfMul e e)) (some 0)
  let fn : NF :=
    match s with
    | some q => some (np_sqrt q)
    | none => none
  let fn := if fn = some 0 then some 1 else fn
  v.map (fun e => nfDiv e fn)

/-- Pool one region and, when requested, normalise it. -/
def region_feat (pt : String) (norm : Bool) (d : ℕ) (rows : List (List ℚ)) :
    Except PoolErr (List NF) :=
  match pool_region pt d rows with
  | .error e => .error e
  | .ok v => .ok (if norm then norm_region v else v)

/-- `edges = np.round(np.cumsum([0, 1/n, ..., 1/n]) * m).astype(int)`
(utils.py:364-366 and utils.py:411-413). -/
def pool_edges (m n : ℕ) : List ℤ :=
  let e0 : List ℚ := List.replicate (n + 1) (1 / (n : ℚ))
  let e1 : List ℚ :=
    match e0 with
    | [] => []
    | _ :: t => 0 :: t
  (cumsum e1).map (fun q => roundHalfEven (q * (m : ℚ)))

/-- The `for j in range(n)` loop, walking consecutive edge pairs: pool (and
optionally normalise) each region `x[edges[j]:edges[j+1]]` and concatenate,
failing fast at the first raised exception like the Python loop. -/
def chunk_feats (pt : String) (norm : Bool) (d : ℕ) (x : List (List ℚ)) :
    List ℤ → Except PoolErr (List NF)
  | a :: b :: rest =>
    match region_feat pt norm d (pySlice x a b) with
    | .error e => .error e
    | .ok v =>
      match chunk_feats pt norm d x (b :: rest) with
      | .error e => .error e
      | .ok t => .ok (v ++ t)
  | _ => .ok []

/-- The `for i in range(levels + 1)` loop of `feature_1dpyramid`, with
`2 ^ i` regions at level `i`, concatenated level-then-position. -/
def level_feats (pt : String) (norm : Bool) (d : ℕ) (x : List (List ℚ)) :
    List ℕ → Except PoolErr (List NF)
  | [] => .ok []
  | i :: rest =>
    match chunk_feats pt norm d x (pool_edges x.length (2 ^ i)) with
    | .error e => .error e
    | .ok v =>
      match level_feats pt norm d x rest with
      | .error e => .error e
      | .ok t => .ok (v ++ t)

/-- `feature_1dpyramid` (utils.py:335-385): pool each level's regions,
concatenate, and when `unit` is set rescale by `1 / (2**(levels+1) - 1)`. -/
def feature_1dpyramid (x : List (List ℚ)) (levels : ℕ) (pool_type : String)
    (norm unit : Bool) : Except PoolErr (List NF) :=
  let d := x.headI.length
  let pt := pyLower pool_type
  match level_feats pt norm d x (List.range (levels + 1)) with
  | .error e => .error e
  | .ok pyr_feat =>
    .ok (if unit
         then pyr_feat.map (fun v => nfDiv v (some ((2 ^ (levels + 1) - 1 : ℕ) : ℚ)))
         else pyr_feat)

/-- `feature_1dconcat` (utils.py:388-431): pool `n` equal chunks,
concatenate, and when `unit` is set rescale by `1 / n`. -/
def feature_1dconcat (x : List (List ℚ)) (n : ℕ) (pool_type : String)
    (norm unit : Bool) : Except PoolErr (List NF) :=
  let d := x.headI.length
  let pt := pyLower pool_type
  match chunk_feats pt norm d x (pool_edges x.length n) with
  | .error e => .error e
  | .ok concat_feat =>
    .ok (if unit
         then concat_feat.map (fun v => nfDiv v (some (n : ℚ)))
         else concat_feat)

/-- Modelled from the spec: "a single global pool over the whole input" —
the one-region pipeline: pool the entire `[m, d]` matrix with the chosen
kind and optionally L2-normalise it.  Reference point for C9. -/
def global_pool (x : List (List ℚ)) (pool_type : String) (norm : Bool) :
    Except PoolErr (List NF) :=
  region_feat (pyLower pool_type) norm x.headI.length x

/-! ## Helper evaluations for the pooling claims -/

lemma pyLower_mean : pyLower "mean" = "mean" := by decide

lemma pyLower_max : pyLower "max" = "max" := by decide

lemma roundHalfEven_zero : roundHalfEven (0 : ℚ) = 0 := by
  simpa using roundHalfEven_intCast 0

lemma roundHalfEven_natCast (m : ℕ) : roundHalfEven ((m : ℕ) : ℚ) = (m : ℤ) := by
  simpa using roundHalfEven_intCast (m : ℤ)

/-- With a single chunk the edges are `[0, m]`. -/
lemma pool_edges_one (m : ℕ) : pool_edges m 1 = [0, (m : ℤ)] := by
  simp [pool_edges, cumsum, List.scanl, roundHalfEven_zero, roundHalfEven_natCast]

/-- With one row and two chunks, `round([0, 0.5, 1])` is `[0, 0, 1]`
(banker's rounding sends `0.5` to `0`), so the first region is empty. -/
lemma pool_edges_1_2 : pool_edges 1 2 = [0, 0, 1] := by
  have hf : Int.fract ((1 : ℚ) / 2) = 1 / 2 := by
    rw [Int.fract]
    norm_num
  norm_num [pool_edges, cumsum, roundHalfEven, hf]

lemma nfDiv_one (v : NF) : nfDiv v (some 1) = v := by
  cases v <;> simp [nfDiv]

lemma pySlice_full (x : List (List ℚ)) : pySlice x 0 (x.length : ℤ) = x := by
  simp [pySlice]

/-- A single region spanning all rows pools the whole input. -/
lemma chunk_feats_single (pt : String) (norm : Bool) (d : ℕ)
    (x : List (List ℚ)) :
    chunk_feats pt norm d x [0, (x.length : ℤ)] = region_feat pt norm d x := by
  cases h : region_feat pt norm d x <;>
    simp [chunk_feats, pySlice_full, h]

lemma np_mean0_nil (d : ℕ) : np_mean0 d [] = List.replicate d none := by
  simp [np_mean0]

lemma np_mean0_one_one : np_mean0 1 [[(1 : ℚ)]] = [some 1] := by
  norm_num [np_mean0, colSum]

lemma norm_region_nan : norm_region [(none : NF)] = [none] := by
  norm_num [norm_region, nfAdd, nfMul, nfDiv]
  decide

lemma norm_region_one : norm_region [some (1 : ℚ)] = [some 1] := by
  norm_num [norm_region, nfAdd, nfMul, nfDiv, np_sqrt, List.range_succ]

lemma region_feat_mean_empty :
    region_feat "mean" true 1 ([] : List (List ℚ)) = .ok [none] := by
  simp [region_feat, pool_region, np_mean0_nil, norm_region_nan]

lemma region_feat_mean_one :
    region_feat "mean" true 1 [[(1 : ℚ)]] = .ok [some 1] := by
  simp [region_feat, pool_region, np_mean0_one_one, norm_region_one]

lemma region_feat_max_empty :
    region_feat "max" true 1 ([] : List (List ℚ)) =
      .error .zeroSizeReduction := by
  simp [region_feat, pool_region, np_max0]

lemma pySlice_one_00 : pySlice [[(1 : ℚ)]] 0 0 = ([] : List (List ℚ)) := rfl

lemma pySlice_one_01 : pySlice [[(1 : ℚ)]] 0 1 = [[(1 : ℚ)]] := rfl

lemma chunk_feats_mean_two : chunk_feats "mean" true 1 [[(1 : ℚ)]] [0, 0, 1] =
    .ok [none, some 1] := by
  simp [chunk_feats, pySlice_one_00, pySlice_one_01,
    region_feat_mean_empty, region_feat_mean_one]

lemma chunk_feats_mean_one : chunk_feats "mean" true 1 [[(1 : ℚ)]] [0, 1] =
    .ok [some 1] := by
  simp [chunk_feats, pySlice_one_01, region_feat_mean_one]

/-! ## Claim theorems: C4 and C9 -/

/-- C4 counterexample: `feature_1dconcat` on a one-row input with `n = 2`
computes edges `[0, 0, 1]`, so the first region `x[0:0]` is empty; the mean
of the empty slice is NaN and the function returns it inside an `ok` result
— no empty-segment error is raised, contradicting the claim. -/
theorem feature_pool_empty_region_nan :
    feature_1dconcat [[(1 : ℚ)]] 2 "mean" true false = .ok [none, some 1] := by
  simp [feature_1dconcat, pyLower_mean, pool_edges_1_2, chunk_feats_mean_two]

/-- C4 (amended): no empty-segment guard exists.  When partition edges
coincide, mean pooling (pyramid or chunk-concat) silently propagates NaN
entries into the returned vector, and max pooling fails — but with numpy's
generic zero-size-reduction ValueError, not a dedicated empty-segment
error. -/
theorem feature_pool_empty_region_behavior :
    feature_1dpyramid [[(1 : ℚ)]] 1 "mean" true false =
      .ok [some 1, none, some 1] ∧
    feature_1dconcat [[(1 : ℚ)]] 2 "max" true false =
      .error .zeroSizeReduction := by
  constructor
  · have hlv : level_feats "mean" true 1 [[(1 : ℚ)]] [0, 1] =
        .ok [some 1, none, some 1] := by
      simp [level_feats, pool_edges_one, pool_edges_1_2,
        chunk_feats_mean_one, chunk_feats_mean_two]
    simp [feature_1dpyramid, pyLower_mean, List.range_succ, hlv]
  · have hck : chunk_feats "max" true 1 [[(1 : ℚ)]] [0, 0, 1] =
        .error .zeroSizeReduction := by
      simp [chunk_feats, pySlice_one_00, region_feat_max_empty]
    simp [feature_1dconcat, pyLower_max, pool_edges_1_2, hck]

/-- C9: for every feature matrix and any pooling kind, per-region
normalisation and unit-scaling choice, `feature_1dpyramid` with `levels = 0`
and `feature_1dconcat` with `n = 1` both equal a single global pool over the
whole input (and hence each other): the single level has edges `[0, m]`, its
one region is the entire input, and the unit rescaling divides by 1. -/
theorem pool_level0_global_equiv (x : List (List ℚ)) (pool_type : String)
    (norm unit : Bool) :
    feature_1dpyramid x 0 pool_type norm unit = global_pool x pool_type norm ∧
    feature_1dconcat x 1 pool_type norm unit = global_pool x pool_type norm := by
  cases h : region_feat (pyLower pool_type) norm x.headI.length x with
  | error e =>
    constructor
    · simp [feature_1dpyramid, global_pool, level_feats, List.range_succ,
        pool_edges_one, chunk_feats_single, h]
    · simp [feature_1dconcat, global_pool, pool_edges_one,
        chunk_feats_single, h]
  | ok v =>
    constructor
    · simp [feature_1dpyramid, global_pool, level_feats, List.range_succ,
        pool_edges_one, chunk_feats_single, h, nfDiv_one]
    · simp [feature_1dconcat, global_pool, pool_edges_one,
        chunk_feats_single, h, nfDiv_one]
